import Mathlib

/-!
Verification development for the SentinelKiosk cash-acceptance drivers.

The development shallowly embeds the two device engines:
* `G13` — the ccTalk coin validator (`src/G13/g13_validator.py`),
* `NV9` — the SSP banknote validator (`src/NV9/nv9_core.py`).

Serial I/O is abstracted: every read result that the Python code obtains
from the wire appears here as an explicit argument (an `Option` of the
byte list that the corresponding read returned, or an oracle function for
per-call results).  Bytes are modelled as `Nat` with explicit `% 256`
where the code masks; Python `%` / `& 0xFF` on possibly negative ints is
modelled through `Int.emod`, which has the same nonnegative-result
convention.
-/

namespace G13

/-- The closed error-code table `G13Validator.ERROR_CODES`. -/
def ERROR_CODES : List (Nat × String) :=
  [(1, "Reject coin"),
   (2, "Inhibited coin"),
   (8, "2nd close coin error"),
   (10, "Credit sensor not ready"),
   (14, "Credit sensor blocked"),
   (16, "Credit sequence error"),
   (17, "Coin going backwards"),
   (20, "Coin-on-string mechanism"),
   (254, "Coin return mechanism"),
   (255, "Unspecified alarm")]

/-- `G13Validator._csum`: the twos-complement-negated low byte of the sum
of the given bytes, i.e. `(-sum(b)) & 0xFF` in the Python source. -/
def csum (b : List Nat) : Nat := ((-(b.sum : Int)) % 256).toNat

/-- `G13Validator._frame`: header `[dest, len(data), src, header]`, then
`data`, then the trailing checksum over everything before it. -/
def frame (dest src header : Nat) (data : List Nat) : List Nat :=
  let core := [dest, data.length, src, header] ++ data
  core ++ [csum core]

/-- Receive side of `G13Validator._xfer` (lines 242-256): read a 4-byte
header, then `length` payload bytes, then one checksum byte, from the
byte `stream` the serial port delivers; reject the reply when the full
byte sum is not `0 mod 256` or when the addressing check fails. -/
def xferReceive (host addr dest : Nat) (stream : List Nat) : Option (List Nat) :=
  if 4 ≤ stream.length then
    let hdr := stream.take 4
    let length := hdr.getD 1 0
    if 4 + length + 1 ≤ stream.length then
      let payload := (stream.drop 4).take length
      let chk := (stream.drop (4 + length)).take 1
      let reply := hdr ++ payload ++ chk
      if reply.sum % 256 = 0 then
        if hdr.getD 0 0 = host ∧ (dest = 0 ∨ hdr.getD 2 0 = addr) then some reply
        else none
      else none
    else none
  else none

/-- `G13Validator._read_buffered_credit_pairs`: from an optional reply
frame, take `r[4:-1]`; when that data is exactly 11 bytes, return the
rolling counter byte and the five `(type, path)` pairs. -/
def readBufferedCreditPairs (r : Option (List Nat)) : Option (Nat × List (Nat × Nat)) :=
  match r with
  | none => none
  | some reply =>
      let data := (reply.drop 4).dropLast
      if data.length = 11 then
        some (data.getD 0 0,
          [(data.getD 1 0, data.getD 2 0),
           (data.getD 3 0, data.getD 4 0),
           (data.getD 5 0, data.getD 6 0),
           (data.getD 7 0, data.getD 8 0),
           (data.getD 9 0, data.getD 10 0)])
      else none

/-- Decoded coin-device event: the event dicts produced by
`G13Validator.poll_once`. -/
inductive G13Event where
  | credit (coinType : Nat) (coinId : Option String) (label : String)
      (valueCents : Option Int) (path : Nat) (counter : Nat)
  | error (code : Nat) (desc : String) (counter : Nat)
deriving DecidableEq, Repr

/-- Whether an event is a credit event. -/
def G13Event.isCredit : G13Event → Bool
  | .credit _ _ _ _ _ _ => true
  | .error _ _ _ => false

/-- The per-pair body of the loop in `G13Validator.poll_once`
(lines 187-211).  `cid` abstracts the combined coin-id resolution
`self._coin_types.get(t) or self.request_coin_id(t)`; `coinIdToLabel`
and `valueFromCoinId` abstract the string-formatting methods of the same
names.  A pair with `type == 0` is skipped (`none`). -/
def pairEvent (cid : Nat → Option String) (coinIdToLabel : String → String)
    (valueFromCoinId : String → Option Int) (counter : Nat)
    (p : Nat × Nat) : Option G13Event :=
  let coinType := p.1
  let path := p.2
  if coinType = 0 then none
  else if 1 ≤ coinType ∧ coinType ≤ 32 then
    let c := cid coinType
    let label :=
      match c with
      | some s => coinIdToLabel s
      | none => "type " ++ toString coinType
    let val :=
      match c with
      | some s => valueFromCoinId s
      | none => none
    some (.credit coinType c label val path counter)
  else
    some (.error coinType ((ERROR_CODES.lookup coinType).getD "Unknown") counter)

/-- `diff = (counter - lastCounter) & 0xFF` of `poll_once` (line 177),
computed over Python integers. -/
def counterDiff (counter lastCounter : Nat) : Nat :=
  (((counter : Int) - (lastCounter : Int)) % 256).toNat

/-- Result of one `poll_once` step: the updated `_last_counter`, the
newest pairs considered as new events (`pairs[:n_new]`), and the decoded
events. -/
structure G13PollOut where
  newLast : Option Nat
  considered : List (Nat × Nat)
  events : List G13Event
deriving DecidableEq, Repr

/-- `G13Validator.poll_once` (lines 159-212), with the read result of
`_read_buffered_credit_pairs` passed in as `res` and the coin-id /
formatting helpers abstracted as in `pairEvent`.  `last` is the stored
`_last_counter` entering the call. -/
def pollOnce (cid : Nat → Option String) (coinIdToLabel : String → String)
    (valueFromCoinId : String → Option Int) (last : Option Nat)
    (res : Option (Nat × List (Nat × Nat))) : G13PollOut :=
  match res with
  | none => ⟨last, [], []⟩
  | some (counter, pairs) =>
      match last with
      | none => ⟨some counter, [], []⟩
      | some lc =>
          let diff := counterDiff counter lc
          if diff = 0 then ⟨some counter, [], []⟩
          else
            let newest := pairs.take (min diff 5)
            ⟨some counter, newest,
              newest.filterMap (pairEvent cid coinIdToLabel valueFromCoinId counter)⟩

end G13

namespace NV9

/-- SSP start-of-frame marker `NV9Validator.STX`. -/
def STX : Nat := 0x7F

/-- Event code `RSP_SSP_SLAVE_RESET`. -/
def RSP_SLAVE_RESET : Nat := 0xF1
/-- Event code `RSP_SSP_NOTE_READ`. -/
def RSP_NOTE_READ : Nat := 0xEF
/-- Event code `RSP_SSP_CREDIT_NOTE`. -/
def RSP_CREDIT_NOTE : Nat := 0xEE
/-- Event code `RSP_SSP_REJECTING`. -/
def RSP_REJECTING : Nat := 0xED
/-- Event code `RSP_SSP_REJECTED`. -/
def RSP_REJECTED : Nat := 0xEC
/-- Event code `RSP_SSP_STACKING`. -/
def RSP_STACKING : Nat := 0xCC
/-- Event code `RSP_SSP_STACKED`. -/
def RSP_STACKED : Nat := 0xEB
/-- Event code `RSP_SSP_DISABLED`. -/
def RSP_DISABLED : Nat := 0xE8
/-- Generic OK reply code `RSP_SSP_OK`. -/
def RSP_OK : Nat := 0xF0

/-- One bit-processing round of `NV9Validator._calculate_crc`
(poly `0x8005`, MSB first, 16-bit mask). -/
def crcRound (crc : Nat) : Nat :=
  if crc &&& 0x8000 ≠ 0 then ((crc <<< 1) ^^^ 0x8005) &&& 0xFFFF
  else (crc <<< 1) &&& 0xFFFF

/-- Folding one data byte into the CRC accumulator: `crc ^= byte << 8`
followed by eight shift rounds. -/
def crcByteStep (crc b : Nat) : Nat := crcRound^[8] (crc ^^^ (b <<< 8))

/-- The 16-bit CRC value of `NV9Validator._calculate_crc`, seed `0xFFFF`. -/
def crcWord (data : List Nat) : Nat := data.foldl crcByteStep 0xFFFF

/-- `NV9Validator._calculate_crc` packed little-endian
(`struct.pack` of the 16-bit CRC). -/
def calculateCrc (data : List Nat) : List Nat :=
  [crcWord data % 256, crcWord data / 256]

/-- The byte-stuffing loop of `NV9Validator._build_packet`: every literal
`0x7F` is doubled. -/
def stuffBytes : List Nat → List Nat
  | [] => []
  | b :: rest => if b = STX then STX :: STX :: stuffBytes rest else b :: stuffBytes rest

/-- `NV9Validator._unstuff_bytes`: collapse doubled `0x7F` to one. -/
def unstuffBytes : List Nat → List Nat
  | [] => []
  | [a] => [a]
  | a :: b :: rest =>
      if a = STX ∧ b = STX then STX :: unstuffBytes rest
      else a :: unstuffBytes (b :: rest)

/-- `NV9Validator._build_packet`: start marker, then the byte-stuffed
image of `payload ++ CRC16(payload)` with
`payload = [addr|seq, len(params)+1, command] ++ params`. -/
def buildPacket (slaveId seqBit cmd : Nat) (params : List Nat) : List Nat :=
  let length := params.length + 1
  let addrSeq := (slaveId &&& 0x7F) ||| (seqBit &&& 0x80)
  let payload := [addrSeq, length, cmd] ++ params
  STX :: stuffBytes (payload ++ calculateCrc payload)

/-- The per-byte accumulation loop of `NV9Validator._read_full_response`
(lines 479-526): `buf` is the stuffed bytes already collected after the
start marker, and the second argument the bytes still to arrive.  After
each byte the unstuffed image is examined: once it holds at least 3
bytes the declared length is read (a declared length below 1 fails the
decode), and once `2 + declaredLen + 2` unstuffed bytes exist the CRC is
checked and the payload (without CRC) returned.  Exhausting the input
models the read deadline expiring. -/
def readFrameLoop (buf : List Nat) : List Nat → Option (List Nat)
  | [] => none
  | b :: rest =>
      let u := unstuffBytes (buf ++ [b])
      if 3 ≤ u.length then
        let declaredLen := u.getD 1 0
        if declaredLen < 1 then none
        else if 2 + declaredLen + 2 ≤ u.length then
          let payload := u.take (2 + declaredLen)
          let crcRx := (u.drop (2 + declaredLen)).take 2
          if crcRx = calculateCrc payload then some payload else none
        else readFrameLoop (buf ++ [b]) rest
      else readFrameLoop (buf ++ [b]) rest

/-- `NV9Validator._read_full_response` on a byte stream: scan to the
first start marker, then run the accumulation loop on what follows. -/
def readFullResponse (wire : List Nat) : Option (List Nat) :=
  match wire.dropWhile (fun b => b ≠ STX) with
  | [] => none
  | _ :: after => readFrameLoop [] after

/-- A list is an initial segment of another list. -/
def ListPref (u s : List Nat) : Prop := ∃ r, u ++ r = s

/-- `NV9Validator._toggle_sequence_bit`: alternate between `0x00` and
`0x80`. -/
def toggleSeq (s : Nat) : Nat := if s = 0 then 0x80 else 0

/-- Outcome of one primary attempt inside `_send_command`: the write
raised a timeout, the write succeeded but no CRC-valid reply arrived, or
a payload was read. -/
inductive AttemptResult where
  | writeTimeout
  | readFail
  | readOk (payload : List Nat)
deriving DecidableEq, Repr

/-- An attempt that produced no payload. -/
def AttemptResult.isFail : AttemptResult → Bool
  | .readOk _ => false
  | _ => true

/-- Exit condition of the primary attempt loop of `_send_command`
(lines 594-611): a write timeout on the final attempt returns `None`
directly (`gaveUp`); a read failure on the final attempt falls through
to the SYNC recovery round (`needRecovery`); a payload ends the loop
successfully. -/
inductive PrimaryExit where
  | gaveUp
  | needRecovery
  | success (payload : List Nat)
deriving DecidableEq, Repr

/-- The primary attempt loop of `_send_command` over the per-attempt
outcomes (one entry per loop iteration, `retries + 1` in the code). -/
def primaryLoop : List AttemptResult → PrimaryExit
  | [] => .needRecovery
  | [.writeTimeout] => .gaveUp
  | [.readFail] => .needRecovery
  | [.readOk p] => .success p
  | .readOk p :: _ :: _ => .success p
  | .writeTimeout :: b :: rest => primaryLoop (b :: rest)
  | .readFail :: b :: rest => primaryLoop (b :: rest)

/-- The check `_send_command` applies to the reply of the recovery SYNC
(line 627): a payload of at least 3 bytes whose code byte is the generic
OK. -/
def syncRespOk : Option (List Nat) → Bool
  | some p => 3 ≤ p.length && p.getD 2 0 = RSP_OK
  | none => false

/-- Observable outcome of one `_send_command` call: the returned payload
(`None` on failure), the sequence bit after the call, whether the
recovery round flushed the buffers and sent a bare SYNC, how many times
the original command was resent after SYNC, and the sequence bit used
for that resend. -/
structure SendOutcome where
  result : Option (List Nat)
  seq : Nat
  flushed : Bool
  syncSent : Bool
  resendCount : Nat
  resendSeq : Option Nat
deriving DecidableEq, Repr

/-- `NV9Validator._send_command` (lines 541-645) with the wire
interactions abstracted: `attempts` lists the outcome of each primary
attempt, `syncResult` the reply of the recovery `_send_sync_once`, and
`resend` the outcome of the post-SYNC resend.  On primary success the
sequence bit toggles once; a write timeout on the final attempt gives up
with the sequence bit untouched; otherwise exactly one recovery round
runs: flush, bare SYNC, and when the SYNC reply is OK the sequence bit
is forced to `0x00` and the command resent once (success toggles from
`0x00`, failure restores the saved pre-attempt sequence bit). -/
def sendCommand (seq : Nat) (attempts : List AttemptResult)
    (syncResult : Option (List Nat)) (resend : AttemptResult) : SendOutcome :=
  match primaryLoop attempts with
  | .success p => ⟨some p, toggleSeq seq, false, false, 0, none⟩
  | .gaveUp => ⟨none, seq, false, false, 0, none⟩
  | .needRecovery =>
      if syncRespOk syncResult then
        match resend with
        | .readOk p => ⟨some p, toggleSeq 0, true, true, 1, some 0⟩
        | _ => ⟨none, seq, true, true, 1, some 0⟩
      else ⟨none, seq, true, true, 0, none⟩

/-- The wire environment of one `_send_command` call. -/
structure SendEnv where
  attempts : List AttemptResult
  syncResult : Option (List Nat)
  resend : AttemptResult
deriving DecidableEq, Repr

/-- `sendCommand` over a bundled environment. -/
def sendCommandE (s : Nat) (e : SendEnv) : SendOutcome :=
  sendCommand s e.attempts e.syncResult e.resend

/-- The sequence bit after a run of consecutive `_send_command` calls. -/
def runExchanges (s : Nat) : List SendEnv → Nat
  | [] => s
  | e :: rest => runExchanges (sendCommandE s e).seq rest

/-- Whether an exchange succeeds already on the primary path (so no
resynchronization is involved). -/
def primarySucc (e : SendEnv) : Bool :=
  match primaryLoop e.attempts with
  | .success _ => true
  | _ => false

/-- Success of each step of `NV9Validator.initialize_device`: the SYNC,
SETUP_REQUEST, optional host-protocol-version, SET_INHIBITS and ENABLE
exchanges. -/
structure InitSteps where
  syncOk : Bool
  setupOk : Bool
  protoOk : Bool
  inhibitsOk : Bool
  enableOk : Bool
deriving DecidableEq, Repr

/-- `NV9Validator.initialize_device` (lines 202-264) with each step
outcome abstracted.  SYNC failure is fatal; SETUP_REQUEST failure and
host-protocol-version failure only log a notice; SET_INHIBITS and ENABLE
failures are fatal. -/
def initializeDevice (requestedProtocolVersion : Option Nat) (st : InitSteps) : Bool :=
  if st.syncOk = false then false
  else if st.inhibitsOk = false then false
  else if st.enableOk = false then false
  else true

/-- Decoded banknote-device event `NV9Event`. -/
structure NV9Event where
  code : Nat
  name : String
  channel : Option Nat
  value : Option Nat
  reason : Option String
deriving DecidableEq, Repr

/-- The fallback table `self.euro_values`. -/
def euroValues : Nat → Option Nat
  | 1 => some 5
  | 2 => some 10
  | 3 => some 20
  | 4 => some 50
  | 5 => some 100
  | 6 => some 200
  | 7 => some 500
  | _ => none

/-- `self.channel_value_map.get(ch) or self.euro_values.get(ch)`:
a missing or falsy (zero) mapped value falls back to the euro table. -/
def channelValue (cvm : Nat → Option Nat) (ch : Nat) : Option Nat :=
  match cvm ch with
  | some v => if v = 0 then euroValues ch else some v
  | none => euroValues ch

/-- `NV9Validator._process_events` (lines 648-689): walk the event
stream; a note-read or credit code consumes one following data byte when
present (a missing trailing data byte counts as channel 0), channel 0
decodes to the non-credit READING event, and every unhandled code
decodes to an UNKNOWN event. -/
def processEvents (cvm : Nat → Option Nat) : List Nat → List NV9Event
  | [] => []
  | code :: rest =>
      if code = RSP_NOTE_READ ∨ code = RSP_CREDIT_NOTE then
        match rest with
        | [] => [⟨code, "READING", none, none, none⟩]
        | ch :: rest2 =>
            if ch = 0 then
              ⟨code, "READING", none, none, none⟩ :: processEvents cvm rest2
            else
              ⟨code, if code = RSP_NOTE_READ then "NOTE_READ" else "CREDIT",
                some ch, channelValue cvm ch, none⟩ :: processEvents cvm rest2
      else if code = RSP_REJECTED then
        ⟨code, "REJECTED", none, none, none⟩ :: processEvents cvm rest
      else if code = RSP_REJECTING then
        ⟨code, "REJECTING", none, none, none⟩ :: processEvents cvm rest
      else if code = RSP_STACKING then
        ⟨code, "STACKING", none, none, none⟩ :: processEvents cvm rest
      else if code = RSP_STACKED then
        ⟨code, "STACKED", none, none, none⟩ :: processEvents cvm rest
      else if code = RSP_DISABLED then
        ⟨code, "DISABLED", none, none, none⟩ :: processEvents cvm rest
      else if code = RSP_SLAVE_RESET then
        ⟨code, "SLAVE_RESET", none, none, none⟩ :: processEvents cvm rest
      else
        ⟨code, "UNKNOWN", none, none, none⟩ :: processEvents cvm rest

end NV9

namespace G13

/-- C7: every frame built by `_frame` (header, data, trailing `_csum`
byte) has byte sum `0 mod 256`; and the receive side of `_xfer` only
ever accepts a reply whose full byte sum is `0 mod 256`, so every reply
failing the sum check yields no result. -/
theorem g13_frame_checksum (dest src header host addr destq : Nat)
    (data stream r : List Nat)
    (hd : dest < 256) (hs : src < 256) (hh : header < 256)
    (hdata : ∀ b ∈ data, b < 256) (hlen : data.length ≤ 255) :
    (frame dest src header data).sum % 256 = 0 ∧
    (xferReceive host addr destq stream = some r → r.sum % 256 = 0) := by
  constructor
  · unfold frame csum
    simp only [List.sum_append, List.sum_cons, List.sum_nil]
    omega
  · intro hacc
    simp only [xferReceive] at hacc
    split_ifs at hacc with h1 h2 h3 h4
    · cases Option.some.inj hacc
      exact h3

/-- Witness for `g13_frame_checksum` at a concrete frame and a concrete
accepted reply stream. -/
theorem g13_frame_checksum_witness :
    (frame 2 1 229 []).sum % 256 = 0 ∧ ([1, 0, 2, 0, 253] : List Nat).sum % 256 = 0 := by
  have h := g13_frame_checksum 2 1 229 1 2 2 [] [1, 0, 2, 0, 253] [1, 0, 2, 0, 253]
    (by norm_num) (by norm_num) (by norm_num) (by simp) (by simp)
  exact ⟨h.1, h.2 (by decide)⟩

/-- C1: `poll_once` computes `diff = (newCounter - lastCounter) mod 256`.
On the very first poll the counter is only recorded as a baseline and no
events are returned; `diff` is always below 256 and is 0 when the
counter is unchanged; when `diff = 0` no events are returned; otherwise
exactly `min diff 5` of the newest pairs are considered, so a delta of 5
or more yields exactly 5 considered pairs. -/
theorem g13_counter_diff (cid : Nat → Option String) (lab : String → String)
    (vfc : String → Option Int) (counter lc : Nat) (pairs : List (Nat × Nat))
    (hc : counter < 256) (hl : lc < 256) (hp : pairs.length = 5) :
    (pollOnce cid lab vfc none (some (counter, pairs))).newLast = some counter ∧
    (pollOnce cid lab vfc none (some (counter, pairs))).considered = [] ∧
    (pollOnce cid lab vfc none (some (counter, pairs))).events = [] ∧
    counterDiff counter lc < 256 ∧
    (counter = lc → counterDiff counter lc = 0) ∧
    (counterDiff counter lc = 0 →
      pollOnce cid lab vfc (some lc) (some (counter, pairs)) = ⟨some counter, [], []⟩) ∧
    (counterDiff counter lc ≠ 0 →
      (pollOnce cid lab vfc (some lc) (some (counter, pairs))).considered.length
        = min (counterDiff counter lc) 5) ∧
    (5 ≤ counterDiff counter lc →
      (pollOnce cid lab vfc (some lc) (some (counter, pairs))).considered.length = 5) := by
  refine ⟨rfl, rfl, rfl, ?_, ?_, ?_, ?_, ?_⟩
  · unfold counterDiff; omega
  · intro h; subst h; unfold counterDiff; omega
  · intro h; simp [pollOnce, h]
  · intro h
    simp [pollOnce, if_neg h, List.length_take, hp]
    try omega
  · intro h
    have hne : counterDiff counter lc ≠ 0 := by omega
    simp [pollOnce, if_neg hne, List.length_take, hp]
    try omega

/-- Witness for `g13_counter_diff`: the first poll installs the baseline,
and a counter step from 10 to 12 considers `min 2 5` pairs. -/
theorem g13_counter_diff_witness :
    (pollOnce (fun _ => none) (fun s => s) (fun _ => none) none
        (some (12, [(4, 1), (0, 0), (7, 1), (2, 1), (1, 1)]))).newLast = some 12 ∧
    (pollOnce (fun _ => none) (fun s => s) (fun _ => none) (some 10)
        (some (12, [(4, 1), (0, 0), (7, 1), (2, 1), (1, 1)]))).considered.length
      = min (counterDiff 12 10) 5 := by
  have h := g13_counter_diff (fun _ => none) (fun s => s) (fun _ => none) 12 10
    [(4, 1), (0, 0), (7, 1), (2, 1), (1, 1)] (by norm_num) (by norm_num) rfl
  exact ⟨h.1, h.2.2.2.2.2.2.1 (by decide)⟩

/-- C9: after a `poll_once` that successfully reads a buffered-credit
payload the stored counter equals the payload counter (also when the
delta exceeds 5); a failed read leaves it unchanged; and a second poll
with an unchanged counter reports no events. -/
theorem g13_counter_commit (cid : Nat → Option String) (lab : String → String)
    (vfc : String → Option Int) (last : Option Nat) (counter : Nat)
    (pairs : List (Nat × Nat)) :
    (pollOnce cid lab vfc last (some (counter, pairs))).newLast = some counter ∧
    (pollOnce cid lab vfc last none).newLast = last ∧
    (pollOnce cid lab vfc (some counter) (some (counter, pairs))).events = [] ∧
    (pollOnce cid lab vfc (some counter) (some (counter, pairs))).considered = [] := by
  refine ⟨?_, rfl, ?_, ?_⟩
  · cases last with
    | none => rfl
    | some lc =>
        simp only [pollOnce]
        split <;> rfl
  · simp [pollOnce, counterDiff]
  · simp [pollOnce, counterDiff]

/-- C8: in the `poll_once` decode loop a pair with type 0 is skipped, a
type in the valid coin range 1..32 decodes to a credit event, a type in
the reserved range (33 and above) decodes to an error event whose
description comes from `ERROR_CODES` with default `Unknown`; and the
emitted events are exactly the per-pair decodes of the considered
pairs. -/
theorem g13_event_classify (cid : Nat → Option String) (lab : String → String)
    (vfc : String → Option Int) (counter t p : Nat) :
    (pairEvent cid lab vfc counter (t, p) = none ↔ t = 0) ∧
    (1 ≤ t → t ≤ 32 →
      ∃ e, pairEvent cid lab vfc counter (t, p) = some e ∧ e.isCredit = true) ∧
    (33 ≤ t →
      pairEvent cid lab vfc counter (t, p)
        = some (.error t ((ERROR_CODES.lookup t).getD "Unknown") counter)) ∧
    (∀ (last : Option Nat) (c : Nat) (pairs : List (Nat × Nat)),
      (pollOnce cid lab vfc last (some (c, pairs))).events
        = (pollOnce cid lab vfc last (some (c, pairs))).considered.filterMap
            (pairEvent cid lab vfc c)) := by
  refine ⟨?_, ?_, ?_, ?_⟩
  · constructor
    · intro h
      by_contra hne
      by_cases hr : 1 ≤ t ∧ t ≤ 32
      · simp [pairEvent, hne, hr] at h
      · simp [pairEvent, hne, hr] at h
    · intro h; simp [pairEvent, h]
  · intro h1 h2
    have hne : ¬ t = 0 := by omega
    simp only [pairEvent, if_neg hne, if_pos (And.intro h1 h2)]
    exact ⟨_, rfl, rfl⟩
  · intro h
    simp only [pairEvent]
    rw [if_neg (by omega), if_neg (by omega)]
  · intro last c pairs
    cases last with
    | none => rfl
    | some lc =>
        simp only [pollOnce]
        split <;> rfl

/-- Witness for `g13_event_classify`: a tabled alarm code, an untabled
alarm code, a skipped empty slot, and a credit-range pair. -/
theorem g13_event_classify_witness :
    pairEvent (fun _ => none) (fun s => s) (fun _ => none) 7 (254, 1)
      = some (.error 254 ((ERROR_CODES.lookup 254).getD "Unknown") 7) ∧
    pairEvent (fun _ => none) (fun s => s) (fun _ => none) 7 (100, 2)
      = some (.error 100 ((ERROR_CODES.lookup 100).getD "Unknown") 7) ∧
    pairEvent (fun _ => none) (fun s => s) (fun _ => none) 7 (0, 1) = none ∧
    (∃ e, pairEvent (fun _ => none) (fun s => s) (fun _ => none) 7 (4, 1) = some e ∧
      e.isCredit = true) := by
  refine ⟨?_, ?_, ?_, ?_⟩
  · exact (g13_event_classify (fun _ => none) (fun s => s) (fun _ => none) 7 254 1).2.2.1
      (by norm_num)
  · exact (g13_event_classify (fun _ => none) (fun s => s) (fun _ => none) 7 100 2).2.2.1
      (by norm_num)
  · exact (g13_event_classify (fun _ => none) (fun s => s) (fun _ => none) 7 0 1).1.mpr rfl
  · exact (g13_event_classify (fun _ => none) (fun s => s) (fun _ => none) 7 4 1).2.1
      (by norm_num) (by norm_num)

end G13

namespace NV9

theorem listPref_length {u s : List Nat} (h : ListPref u s) : u.length ≤ s.length := by
  obtain ⟨r, hr⟩ := h
  rw [← hr, List.length_append]
  omega

theorem listPref_eq {u s : List Nat} (h : ListPref u s) (hl : s.length ≤ u.length) :
    u = s := by
  obtain ⟨r, hr⟩ := h
  have : r = [] := by
    have := congrArg List.length hr
    simp [List.length_append] at this
    cases r with
    | nil => rfl
    | cons x xs => simp at this; omega
  subst this
  simpa using hr

theorem listPref_getD {u s : List Nat} (h : ListPref u s) {i : Nat}
    (hi : i < u.length) : u.getD i 0 = s.getD i 0 := by
  obtain ⟨r, hr⟩ := h
  subst hr
  rw [List.getD_eq_getElem?_getD, List.getD_eq_getElem?_getD,
    List.getElem?_append_left hi]

theorem unstuff_cons_ne (a : Nat) (xs : List Nat) (h : a ≠ STX) :
    unstuffBytes (a :: xs) = a :: unstuffBytes xs := by
  cases xs with
  | nil => simp [unstuffBytes]
  | cons b ys => simp [unstuffBytes, h]

theorem unstuff_stx2 (xs : List Nat) :
    unstuffBytes (STX :: STX :: xs) = STX :: unstuffBytes xs := by
  simp [unstuffBytes]

/-- Decoding undoes encoding: unstuffing the stuffed image of any byte
list gives the list back. -/
theorem unstuff_stuff (s : List Nat) : unstuffBytes (stuffBytes s) = s := by
  induction s with
  | nil => simp [stuffBytes, unstuffBytes]
  | cons a t ih =>
      by_cases h : a = STX
      · subst h
        simp [stuffBytes, unstuff_stx2, ih]
      · simp [stuffBytes, h, unstuff_cons_ne _ _ h, ih]

/-- Unstuffing any initial segment of a stuffed image yields an initial
segment of the original list (a cut in the middle of a doubled marker
still decodes that marker). -/
theorem unstuff_take_pref (s : List Nat) :
    ∀ k, ListPref (unstuffBytes ((stuffBytes s).take k)) s := by
  induction s with
  | nil => intro k; exact ⟨[], by simp [stuffBytes, unstuffBytes]⟩
  | cons a t ih =>
      intro k
      by_cases h : a = STX
      · subst h
        match k with
        | 0 => exact ⟨STX :: t, by simp [stuffBytes, unstuffBytes]⟩
        | 1 =>
            refine ⟨t, ?_⟩
            simp [stuffBytes, List.take, unstuffBytes]
        | (k + 2) =>
            obtain ⟨r, hr⟩ := ih k
            refine ⟨r, ?_⟩
            simp only [stuffBytes, if_pos rfl, List.take, unstuff_stx2]
            rw [List.cons_append, hr]
      · match k with
        | 0 => exact ⟨a :: t, by simp [stuffBytes, unstuffBytes]⟩
        | (k + 1) =>
            obtain ⟨r, hr⟩ := ih k
            refine ⟨r, ?_⟩
            simp only [stuffBytes, if_neg h, List.take, unstuff_cons_ne _ _ h]
            rw [List.cons_append, hr]

/-- Correctness of the incremental receive loop: feeding it the stuffed
image of a well-formed `payload ++ CRC`, byte by byte, returns exactly
the payload. -/
theorem readFrameLoop_correct (payload : List Nat)
    (hlen : payload.length = 2 + payload.getD 1 0) (hdl : 1 ≤ payload.getD 1 0) :
    ∀ (rest buf : List Nat),
      buf ++ rest = stuffBytes (payload ++ calculateCrc payload) →
      (unstuffBytes buf).length < (payload ++ calculateCrc payload).length →
      readFrameLoop buf rest = some payload := by
  intro rest
  induction rest with
  | nil =>
      intro buf h hlt
      rw [List.append_nil] at h
      subst h
      rw [unstuff_stuff] at hlt
      omega
  | cons b rest ih =>
      intro buf h hlt
      have hb2 : (buf ++ [b]) ++ rest = stuffBytes (payload ++ calculateCrc payload) := by
        simpa [List.append_assoc] using h
      have htake : (stuffBytes (payload ++ calculateCrc payload)).take (buf ++ [b]).length
          = buf ++ [b] := by
        rw [← hb2]; exact List.take_left _ _
      have hpref : ListPref (unstuffBytes (buf ++ [b])) (payload ++ calculateCrc payload) := by
        rw [← htake]; exact unstuff_take_pref _ _
      have hslen : (payload ++ calculateCrc payload).length = payload.length + 2 := by
        simp [calculateCrc]
      have hul : (unstuffBytes (buf ++ [b])).length
          ≤ (payload ++ calculateCrc payload).length := listPref_length hpref
      show readFrameLoop buf (b :: rest) = some payload
      simp only [readFrameLoop]
      by_cases h3 : 3 ≤ (unstuffBytes (buf ++ [b])).length
      · have hg1 : (unstuffBytes (buf ++ [b])).getD 1 0 = payload.getD 1 0 := by
          rw [listPref_getD hpref (by omega)]
          rw [List.getD_eq_getElem?_getD, List.getD_eq_getElem?_getD,
            List.getElem?_append_left (by omega)]
        have hdl1 : ¬ ((unstuffBytes (buf ++ [b])).getD 1 0 < 1) := by omega
        by_cases hc : 2 + (unstuffBytes (buf ++ [b])).getD 1 0 + 2
            ≤ (unstuffBytes (buf ++ [b])).length
        · have hueq : unstuffBytes (buf ++ [b]) = payload ++ calculateCrc payload :=
            listPref_eq hpref (by omega)
          rw [if_pos h3, if_neg hdl1, if_pos hc]
          have htake2 : (unstuffBytes (buf ++ [b])).take
              (2 + (unstuffBytes (buf ++ [b])).getD 1 0) = payload := by
            rw [hg1, hueq, ← hlen]
            exact List.take_left _ _
          have hdrop2 : ((unstuffBytes (buf ++ [b])).drop
              (2 + (unstuffBytes (buf ++ [b])).getD 1 0)).take 2
              = calculateCrc payload := by
            rw [hg1, hueq, ← hlen, List.drop_left]
            simp [calculateCrc]
          rw [htake2, hdrop2, if_pos rfl]
        · rw [if_pos h3, if_neg hdl1, if_neg hc]
          exact ih (buf ++ [b]) hb2 (by omega)
      · rw [if_neg h3]
        exact ih (buf ++ [b]) hb2 (by omega)

theorem dropWhile_stx (t : List Nat) :
    List.dropWhile (fun b => b ≠ STX) (STX :: t) = STX :: t := by
  simp [List.dropWhile]

theorem readFullResponse_stx (t : List Nat) :
    readFullResponse (STX :: t) = readFrameLoop [] t := by
  unfold readFullResponse
  rw [dropWhile_stx]

/-- C3: feeding the wire bytes produced by `_build_packet` to the
receive-side decoder of `_read_full_response` recovers exactly the
original address/sequence byte, length byte, command code, and parameter
bytes.  The hypotheses state the byte-range preconditions under which
the Python `bytes` constructor accepts the frame fields. -/
theorem nv9_frame_roundtrip (slaveId seqBit cmd : Nat) (params : List Nat)
    (hsl : slaveId < 256) (hsq : seqBit < 256) (hcmd : cmd < 256)
    (hplen : params.length + 1 ≤ 255) (hpb : ∀ x ∈ params, x < 256) :
    readFullResponse (buildPacket slaveId seqBit cmd params) =
      some ([(slaveId &&& 0x7F) ||| (seqBit &&& 0x80), params.length + 1, cmd] ++ params) := by
  have hbp : buildPacket slaveId seqBit cmd params
      = STX :: stuffBytes
          (([(slaveId &&& 0x7F) ||| (seqBit &&& 0x80), params.length + 1, cmd] ++ params)
            ++ calculateCrc
              ([(slaveId &&& 0x7F) ||| (seqBit &&& 0x80), params.length + 1, cmd]
                ++ params)) := rfl
  rw [hbp, readFullResponse_stx]
  refine readFrameLoop_correct _ ?_ ?_ _ [] rfl ?_
  · simp [List.getD]
    omega
  · simp [List.getD]
  · simp [unstuffBytes, calculateCrc]

/-- Witness for `nv9_frame_roundtrip` on a frame whose parameters contain
the start-marker byte (so stuffing actually occurs). -/
theorem nv9_frame_roundtrip_witness :
    readFullResponse (buildPacket 1 0x80 0x07 [0x7F, 0x02]) =
      some ([(1 &&& 0x7F) ||| (0x80 &&& 0x80), [0x7F, 0x02].length + 1, 0x07]
        ++ [0x7F, 0x02]) :=
  nv9_frame_roundtrip 1 0x80 0x07 [0x7F, 0x02] (by norm_num) (by norm_num)
    (by norm_num) (by decide) (by decide)

theorem sendCommand_primarySucc_seq (s : Nat) (e : SendEnv)
    (h : primarySucc e = true) : (sendCommandE s e).seq = toggleSeq s := by
  unfold primarySucc at h
  unfold sendCommandE sendCommand
  cases hp : primaryLoop e.attempts with
  | success p => rfl
  | gaveUp => rw [hp] at h; simp at h
  | needRecovery => rw [hp] at h; simp at h

theorem runExchanges_toggle (envs : List SendEnv) : ∀ (s : Nat), s = 0 ∨ s = 128 →
    (∀ x ∈ envs, primarySucc x = true) →
    runExchanges s envs = (fun b => b ^^^ 128)^[envs.length] s := by
  induction envs with
  | nil => intro s _ _; rfl
  | cons x xs ih =>
      intro s hs hall
      rw [runExchanges, sendCommand_primarySucc_seq s x (hall x (by simp))]
      have hts : toggleSeq s = s ^^^ 128 := by
        rcases hs with h | h <;> subst h <;> decide
      rw [hts, List.length_cons, Function.iterate_succ_apply]
      exact ih (s ^^^ 128)
        (by rcases hs with h | h <;> subst h <;> simp)
        (fun y hy => hall y (by simp [hy]))

theorem sendCommand_none_seq (s : Nat) (att : List AttemptResult)
    (sy : Option (List Nat)) (rs : AttemptResult)
    (h : (sendCommand s att sy rs).result = none) :
    (sendCommand s att sy rs).seq = s := by
  cases hp : primaryLoop att with
  | success p => simp [sendCommand, hp] at h
  | gaveUp => simp [sendCommand, hp]
  | needRecovery =>
      by_cases hsy : syncRespOk sy
      · cases rs with
        | readOk p => simp [sendCommand, hp, hsy] at h
        | writeTimeout => simp [sendCommand, hp, hsy]
        | readFail => simp [sendCommand, hp, hsy]
      · simp [sendCommand, hp, hsy]

/-- C2: after `N` consecutive exchanges that all succeed on the primary
path (so no resynchronization is involved), the sequence bit equals its
starting value XORed `N` times with `0x80` — one toggle per successful
exchange; and an exchange that returns no payload leaves the sequence
bit at its pre-attempt value, whether it gave up on a write timeout,
failed the recovery SYNC, or failed the post-SYNC resend. -/
theorem nv9_sequence_invariant (s : Nat) (envs : List SendEnv) (e : SendEnv)
    (hs : s = 0 ∨ s = 128)
    (hall : ∀ x ∈ envs, primarySucc x = true) :
    runExchanges s envs = (fun b => b ^^^ 128)^[envs.length] s ∧
    ((sendCommandE s e).result = none → (sendCommandE s e).seq = s) :=
  ⟨runExchanges_toggle envs s hs hall,
    fun h => sendCommand_none_seq s e.attempts e.syncResult e.resend h⟩

/-- Witness for `nv9_sequence_invariant`: three primary successes toggle
the bit three times, and a fully failed exchange leaves it at 0. -/
theorem nv9_sequence_invariant_witness :
    runExchanges 0
        [⟨[.readOk [0x80, 1, 0xF0]], none, .readFail⟩,
         ⟨[.readOk [0x00, 1, 0xF0]], none, .readFail⟩,
         ⟨[.readOk [0x80, 1, 0xF0]], none, .readFail⟩]
      = (fun b => b ^^^ 128)^[3] 0 ∧
    (sendCommandE 0 ⟨[.writeTimeout, .writeTimeout, .writeTimeout], none, .readFail⟩).seq
      = 0 := by
  have h := nv9_sequence_invariant 0
    [⟨[.readOk [0x80, 1, 0xF0]], none, .readFail⟩,
     ⟨[.readOk [0x00, 1, 0xF0]], none, .readFail⟩,
     ⟨[.readOk [0x80, 1, 0xF0]], none, .readFail⟩]
    ⟨[.writeTimeout, .writeTimeout, .writeTimeout], none, .readFail⟩
    (Or.inl rfl) (by decide)
  exact ⟨h.1, h.2 (by decide)⟩

/-- C4 counterexample: with the default retry budget, three consecutive
write timeouts make `_send_command` give up immediately — no buffer
flush and no bare SYNC is sent, so no recovery round is performed even
though all primary attempts failed. -/
theorem nv9_recovery_claim_cex :
    (sendCommand 0x80 [.writeTimeout, .writeTimeout, .writeTimeout]
        (some [0, 1, 0xF0]) .readFail).result = none ∧
    (sendCommand 0x80 [.writeTimeout, .writeTimeout, .writeTimeout]
        (some [0, 1, 0xF0]) .readFail).flushed = false ∧
    ¬ (sendCommand 0x80 [.writeTimeout, .writeTimeout, .writeTimeout]
        (some [0, 1, 0xF0]) .readFail).syncSent = true := by
  decide

theorem primaryLoop_fail_cons (a b : AttemptResult) (rest : List AttemptResult)
    (ha : a.isFail = true) :
    primaryLoop (a :: b :: rest) = primaryLoop (b :: rest) := by
  cases a with
  | writeTimeout => rfl
  | readFail => rfl
  | readOk p => simp [AttemptResult.isFail] at ha

/-- C4 (amended): when the first two attempts fail, the behaviour of
`_send_command` depends on how the final attempt fails.  A final write
timeout returns `None` at once with no recovery round and the sequence
bit untouched; a final read failure triggers exactly one recovery round
(flush both buffers, send a bare SYNC); if the SYNC reply is not OK the
exchange returns `None` with the sequence bit restored, and if SYNC
succeeds the command is resent exactly once with the sequence bit forced
to `0x00`, a failing resend again returning `None` with the sequence bit
restored to its pre-attempt value. -/
theorem nv9_recovery_amended (s : Nat) (a b c : AttemptResult)
    (sync : Option (List Nat)) (resend : AttemptResult)
    (ha : a.isFail = true) (hb : b.isFail = true) :
    (c = .writeTimeout →
      sendCommand s [a, b, c] sync resend = ⟨none, s, false, false, 0, none⟩) ∧
    (c = .readFail →
      (sendCommand s [a, b, c] sync resend).flushed = true ∧
      (sendCommand s [a, b, c] sync resend).syncSent = true ∧
      (syncRespOk sync = false →
        sendCommand s [a, b, c] sync resend = ⟨none, s, true, true, 0, none⟩) ∧
      (syncRespOk sync = true →
        (sendCommand s [a, b, c] sync resend).resendCount = 1 ∧
        (sendCommand s [a, b, c] sync resend).resendSeq = some 0 ∧
        (resend.isFail = true →
          sendCommand s [a, b, c] sync resend = ⟨none, s, true, true, 1, some 0⟩))) := by
  have hloop : primaryLoop [a, b, c] = primaryLoop [c] := by
    rw [primaryLoop_fail_cons a b [c] ha, primaryLoop_fail_cons b c [] hb]
  constructor
  · intro hcw
    subst hcw
    simp [sendCommand, hloop, primaryLoop]
  · intro hcr
    subst hcr
    have hrec : primaryLoop [a, b, AttemptResult.readFail] = .needRecovery := by
      rw [hloop]; rfl
    by_cases hsy : syncRespOk sync
    · refine ⟨?_, ?_, ?_, ?_⟩
      · cases resend <;> simp [sendCommand, hrec, hsy]
      · cases resend <;> simp [sendCommand, hrec, hsy]
      · intro hf; rw [hf] at hsy; simp at hsy
      · intro _
        refine ⟨?_, ?_, ?_⟩
        · cases resend <;> simp [sendCommand, hrec, hsy]
        · cases resend <;> simp [sendCommand, hrec, hsy]
        · intro hrf
          cases resend with
          | readOk p => simp [AttemptResult.isFail] at hrf
          | writeTimeout => simp [sendCommand, hrec, hsy]
          | readFail => simp [sendCommand, hrec, hsy]
    · refine ⟨?_, ?_, ?_, ?_⟩
      · simp [sendCommand, hrec, hsy]
      · simp [sendCommand, hrec, hsy]
      · intro _; simp [sendCommand, hrec, hsy]
      · intro ht; rw [ht] at hsy; simp at hsy

/-- Witness for `nv9_recovery_amended`: a final read failure with a
failed SYNC returns no result, one recovery round, sequence bit
restored. -/
theorem nv9_recovery_amended_witness :
    sendCommand 128 [.writeTimeout, .readFail, .readFail] none .readFail
      = ⟨none, 128, true, true, 0, none⟩ :=
  ((nv9_recovery_amended 128 .writeTimeout .readFail .readFail none .readFail
    rfl rfl).2 rfl).2.2.1 rfl

/-- C5: `initialize_device` returns true exactly when SYNC, SET_INHIBITS
and ENABLE succeed — a SETUP_REQUEST failure or a host-protocol-version
failure never changes the outcome, so a session with a failed capability
discovery still comes up enabled on the default value mapping. -/
theorem nv9_bringup (p : Option Nat) (st : InitSteps) (su pr : Bool) :
    initializeDevice p st = (st.syncOk && st.inhibitsOk && st.enableOk) ∧
    initializeDevice p ⟨true, su, pr, true, true⟩ = true := by
  constructor
  · rcases st with ⟨s, a, b, i, e⟩
    cases s <;> cases i <;> cases e <;> rfl
  · rfl

/-- C6: a note-read or credit code followed by a zero data byte decodes
to the non-credit READING event with no channel and no value; and the
event stream `[0xEE, 0x03]` with channel 3 mapped to value 20 decodes to
exactly one CREDIT event with channel 3 and value 20. -/
theorem nv9_event_decode (cvm : Nat → Option Nat) (c : Nat) (rest : List Nat)
    (hc : c = RSP_CREDIT_NOTE ∨ c = RSP_NOTE_READ) (h3 : cvm 3 = some 20) :
    processEvents cvm (c :: 0 :: rest) =
      ⟨c, "READING", none, none, none⟩ :: processEvents cvm rest ∧
    processEvents cvm [RSP_CREDIT_NOTE, 3] =
      [⟨RSP_CREDIT_NOTE, "CREDIT", some 3, some 20, none⟩] := by
  constructor
  · rcases hc with h | h <;> subst h <;>
      simp [processEvents, RSP_CREDIT_NOTE, RSP_NOTE_READ]
  · simp [processEvents, channelValue, h3, RSP_CREDIT_NOTE, RSP_NOTE_READ]

/-- Witness for `nv9_event_decode` with a concrete channel map. -/
theorem nv9_event_decode_witness :
    processEvents (fun ch => if ch = 3 then some 20 else none) (0xEE :: 0 :: [0xEC]) =
      ⟨0xEE, "READING", none, none, none⟩
        :: processEvents (fun ch => if ch = 3 then some 20 else none) [0xEC] ∧
    processEvents (fun ch => if ch = 3 then some 20 else none) [RSP_CREDIT_NOTE, 3] =
      [⟨RSP_CREDIT_NOTE, "CREDIT", some 3, some 20, none⟩] :=
  nv9_event_decode (fun ch => if ch = 3 then some 20 else none) 0xEE [0xEC]
    (Or.inl rfl) (by decide)

/-- C10: `_process_events` is a total function of the byte stream — a
nonempty stream always decodes to at least one event; a note-read or
credit code standing alone at the end of the stream (its data byte
missing) decodes to the READING event as if the channel byte were 0; and
any unrecognized code decodes to an UNKNOWN event while the rest of the
stream is still processed. -/
theorem nv9_events_total (cvm : Nat → Option Nat) (c d : Nat) (data : List Nat)
    (hc : c = RSP_CREDIT_NOTE ∨ c = RSP_NOTE_READ)
    (hd : d ∉ ([RSP_NOTE_READ, RSP_CREDIT_NOTE, RSP_REJECTED, RSP_REJECTING,
      RSP_STACKING, RSP_STACKED, RSP_DISABLED, RSP_SLAVE_RESET] : List Nat)) :
    processEvents cvm [c] = [⟨c, "READING", none, none, none⟩] ∧
    (∀ rest, processEvents cvm (d :: rest) =
      ⟨d, "UNKNOWN", none, none, none⟩ :: processEvents cvm rest) ∧
    (data ≠ [] → processEvents cvm data ≠ []) := by
  simp only [List.mem_cons, List.mem_singleton] at hd
  push_neg at hd
  obtain ⟨hd1, hd2, hd3, hd4, hd5, hd6, hd7, hd8⟩ := hd
  refine ⟨?_, ?_, ?_⟩
  · rcases hc with h | h <;> subst h <;>
      simp [processEvents, RSP_CREDIT_NOTE, RSP_NOTE_READ]
  · intro rest
    cases rest <;> simp [processEvents, hd1, hd2, hd3, hd4, hd5, hd6, hd7, hd8]
  · intro hne
    cases data with
    | nil => exact absurd rfl hne
    | cons x xs =>
        cases xs <;> simp only [processEvents] <;> split_ifs <;> simp

/-- Witness for `nv9_events_total`: a lone trailing credit code, an
unknown code, and a nonempty stream. -/
theorem nv9_events_total_witness :
    processEvents (fun _ => none) [0xEF] = [⟨0xEF, "READING", none, none, none⟩] ∧
    processEvents (fun _ => none) (0x42 :: [0xEB]) =
      ⟨0x42, "UNKNOWN", none, none, none⟩ :: processEvents (fun _ => none) [0xEB] ∧
    processEvents (fun _ => none) [0x42] ≠ [] := by
  have h := nv9_events_total (fun _ => none) 0xEF 0x42 [0x42] (Or.inr rfl) (by decide)
  exact ⟨h.1, h.2.1 [0xEB], h.2.2 (by decide)⟩

end NV9
